import Mathlib

/-!
Verification of the two QuantConnect strategy scripts of this repository:
`SpyLast15Minutes.py` (class `SpyEndOfDayPump`) and
`SpyStraddleClose2Open.py` (class `SpyStraddleCloseToOpen`).

Modelling conventions:
* Python floats are modelled as exact rationals (`ℚ`); Python ints as `ℤ`
  (`int()` truncates toward zero, see `pyTrunc`).
* Host-supplied data (option chains, quote prices, the clock, the circuit
  breaker calendar test) enter the handlers as explicit parameters.
* Python `sorted` is a stable comparison sort; it is modelled by the stable
  insertion sort `isort` below.
-/

set_option maxRecDepth 8000

namespace QC

/-! ### A stable sort, modelling Python `sorted` with a key function -/

/-- Insert `a` into `l`, placing it before the first element `b` with
`le a b`; for elements comparing equal the older list element stays first
only if it is to the left, so the sort built from this is stable. -/
def sInsert {α : Type} (le : α → α → Bool) (a : α) : List α → List α
  | [] => [a]
  | b :: l => if le a b then a :: b :: l else b :: sInsert le a l

/-- Stable insertion sort with a boolean comparison, as Python `sorted`. -/
def isort {α : Type} (le : α → α → Bool) : List α → List α
  | [] => []
  | a :: l => sInsert le a (isort le l)

/-! ### Option contracts and chains (`OnData`, lines 148-203) -/

/-- One option contract slice from a QuantConnect option chain.
`right = 0` is a call, `right = 1` is a put, as compared in `OnData`. -/
structure Contract where
  symbol : String
  strike : ℚ
  expiry : ℤ
  right : ℕ
  bidPrice : ℚ
  askPrice : ℚ
  underlyingLastPrice : ℚ
deriving DecidableEq, Repr

/-- An option chain for the subscribed symbol: the underlying price and the
contract slices. -/
structure Chain where
  underlyingPrice : ℚ
  contracts : List Contract
deriving DecidableEq, Repr

/-- The comprehension `calls = [x for x in chain if x.Right == 0]`. -/
def callsOf (ch : Chain) : List Contract :=
  ch.contracts.filter (fun x => x.right == 0)

/-- The comprehension `puts = [x for x in chain if x.Right == 1]`. -/
def putsOf (ch : Chain) : List Contract :=
  ch.contracts.filter (fun x => x.right == 1)

/-- The sort key `abs(chain.Underlying.Price + self.strike_offset - x.Strike)`. -/
def strikeDist (so u : ℚ) (x : Contract) : ℚ := |u + so - x.strike|

/-- Comparison used by the first `sorted` pass: ascending strike distance. -/
def distLe (so u : ℚ) : Contract → Contract → Bool :=
  fun x y => decide (strikeDist so u x ≤ strikeDist so u y)

/-- Comparison used by the second `sorted` pass:
`key = lambda x: x.Expiry, reverse = True`, i.e. descending expiry. -/
def expiryGe : Contract → Contract → Bool :=
  fun x y => decide (y.expiry ≤ x.expiry)

/-- The list `pctrcts` after both `sorted` passes of `OnData` (lines 162, 165). -/
def pctrcts (so : ℚ) (ch : Chain) : List Contract :=
  isort expiryGe (isort (distLe so ch.underlyingPrice) (putsOf ch))

/-- The list `cctrcts` after both `sorted` passes of `OnData` (lines 163, 166). -/
def cctrcts (so : ℚ) (ch : Chain) : List Contract :=
  isort expiryGe (isort (distLe so ch.underlyingPrice) (callsOf ch))

/-! ### The seven-try contract-selection loop (`OnData`, lines 173-191) -/

/-- Outcome of the `for j in range(7)` loop.  `oob` is the case where
`cctrcts[j]` or `pctrcts[j]` is indexed out of bounds, which in Python
raises `IndexError`. -/
inductive LoopResult where
  | oob : LoopResult
  | found : Contract → Contract → LoopResult
  | exhausted : LoopResult
deriving DecidableEq, Repr

/-- The test `re.search` of line 177 applied to the two symbols:
the concatenated symbols contain a pipe character. -/
def symClash (c p : Contract) : Bool := (c.symbol ++ p.symbol).contains '|'

/-- The selection loop, started at `sevenTry cs ps 0 7`.  Each iteration
indexes both lists at `j` (contract objects are always truthy, so the
`else: break` alternative of the Python truthiness test is unreachable for
real contracts); a clash moves to the next index, otherwise the pair is
selected and the loop breaks. -/
def sevenTry (cs ps : List Contract) : ℕ → ℕ → LoopResult
  | _, 0 => .exhausted
  | j, t + 1 =>
    match cs.get? j, ps.get? j with
    | some cj, some pj =>
      if symClash cj pj then sevenTry cs ps (j + 1) t else .found cj pj
    | _, _ => .oob

/-! ### Straddle pricing (`GetStraddleMidPrice`, lines 206-212) -/

/-- Round-half-to-even to an integer, the rounding Python uses in its
two-decimal float format (modelled over exact rationals). -/
def roundHalfEven (q : ℚ) : ℤ :=
  let f := ⌊q⌋
  if q - f < 1 / 2 then f
  else if (1 : ℚ) / 2 < q - f then f + 1
  else if f % 2 = 0 then f else f + 1

/-- The conversion of line 210, rounding to two decimal places. -/
def round2 (q : ℚ) : ℚ := (roundHalfEven (q * 100) : ℚ) / 100

/-- Model of `GetStraddleMidPrice`: combined ask, combined bid, their midpoint,
formatted to two decimals. -/
def getStraddleMidPrice (call put : Contract) : ℚ :=
  let straddle_ask := call.askPrice + put.askPrice
  let straddle_bid := call.bidPrice + put.bidPrice
  let straddle_rough := (straddle_ask + straddle_bid) / 2
  round2 straddle_rough

/-- Python `int(x)` truncates toward zero. -/
def pyTrunc (q : ℚ) : ℤ := Int.tdiv q.num q.den

/-! ### The `SpyStraddleCloseToOpen` instance state

Fields are the `self.*` attributes of the script.  `option_cost_basis` and
`share_cost_basis` are not assigned by the Python constructor (they are first
assigned inside `BuyTheClose` and only read afterwards, on paths where
`BuyTheClose` has run); the model initialises them to `0`. -/

structure SState where
  money : ℚ
  strike_offset : ℚ
  option_buy_offset : ℚ
  option_sell_offset : ℚ
  option_portion : ℚ
  share_portion : ℚ
  put_now : Option Contract
  call_now : Option Contract
  call_invested : Option Contract
  put_invested : Option Contract
  option_qty : ℤ
  share_qty : ℤ
  holding : Bool
  spy_price_invested : ℚ
  fees : ℚ
  expiry : ℤ
  strike : ℚ
  option_buy_price : ℚ
  option_total_profit : ℚ
  share_buy_price : ℚ
  share_total_profit : ℚ
  last_pct : ℚ
  last_profit : ℚ
  circuit_breaker : Bool
  option_cost_basis : ℚ
  share_cost_basis : ℚ

/-- The state built by the constructor of `SpyStraddleCloseToOpen`
(lines 51-141); `t` is the host clock value `self.Time` assigned to
`self.expiry`. -/
def initState (t : ℤ) : SState :=
  { money := 100000
    strike_offset := -3
    option_buy_offset := 0
    option_sell_offset := 2 / 100
    option_portion := 1 / 2
    share_portion := 1 / 2
    put_now := none
    call_now := none
    call_invested := none
    put_invested := none
    option_qty := 0
    share_qty := 0
    holding := false
    spy_price_invested := 0
    fees := 0
    expiry := t
    strike := 0
    option_buy_price := 0
    option_total_profit := 0
    share_buy_price := 0
    share_total_profit := 0
    last_pct := 0
    last_profit := 0
    circuit_breaker := false
    option_cost_basis := 0
    share_cost_basis := 0 }

/-! ### `OnData` (lines 148-203), for one chain of the subscribed symbol -/

/-- Lines 193-203: refresh `call_invested`/`put_invested` from the chain
when a straddle is held.  The comprehension keeps contracts matching the
recorded expiry and strike; an empty match resets both to the empty dict. -/
def investedBlock (ch : Chain) (s : SState) : SState :=
  if 0 < s.option_qty then
    match (callsOf ch).filter (fun x => x.expiry == s.expiry && x.strike == s.strike),
          (putsOf ch).filter (fun x => x.expiry == s.expiry && x.strike == s.strike) with
    | c :: _, p :: _ => { s with call_invested := some c, put_invested := some p }
    | _, _ => { s with call_invested := none, put_invested := none }
  else s

/-- The body of `OnData` for one option chain whose key is the subscribed
symbol.  An `IndexError` from the seven-try loop aborts the handler before
any `self.*` assignment, so the `oob` branch leaves the state unchanged. -/
def onDataChain (ch : Chain) (s : SState) : SState :=
  if pctrcts s.strike_offset ch = [] ∨ cctrcts s.strike_offset ch = [] then
    investedBlock ch { s with put_now := none, call_now := none }
  else
    match sevenTry (cctrcts s.strike_offset ch) (pctrcts s.strike_offset ch) 0 7 with
    | .found cj pj => investedBlock ch { s with call_now := some cj, put_now := some pj }
    | .exhausted => investedBlock ch { s with put_now := none, call_now := none }
    | .oob => s

/-! ### `BuyTheClose` (lines 219-275) -/

/-- Lines 226-262: the straddle leg.  Returns the updated state and the
`buy_shares` flag (left `True` when `option_portion ≤ 0`, set `False` when
the candidate contracts are empty).  The line-249 quantity computation is
modelled with total rational division; at a zero computed straddle price
the Python raises `ZeroDivisionError` there and aborts the handler before
assigning `option_qty` or `holding`, so theorems asserting a completed buy
carry a positive-price hypothesis. -/
def buyOptionLeg (s : SState) : SState × Bool :=
  if 0 < s.option_portion then
    match s.call_now, s.put_now with
    | some cn, some pn =>
      let obp := getStraddleMidPrice cn pn + s.option_buy_offset
      let oq := pyTrunc ((s.money * s.option_portion - 20) / (obp * 100))
      ({ s with expiry := cn.expiry, strike := cn.strike,
                spy_price_invested := cn.underlyingLastPrice,
                option_buy_price := obp,
                option_qty := oq,
                option_cost_basis := (oq : ℚ) * obp * 100 + 20,
                fees := s.fees + 20,
                call_invested := some cn,
                put_invested := some pn,
                holding := true }, true)
    | _, _ => (s, false)
  else (s, true)

/-- Lines 264-272: the share leg, entered when `share_portion > 0` and
`buy_shares` is still true.  The line-268 quantity computation is modelled
with total rational division; at a zero ask the Python raises
`ZeroDivisionError` there and aborts before assigning `share_qty` and
before the line-275 debit, so theorems asserting a completed buy carry a
nonzero-ask hypothesis. -/
def buyShareLeg (spyAsk : ℚ) (x : SState × Bool) : SState :=
  let s := x.1
  if 0 < s.share_portion ∧ x.2 = true then
    let sq := pyTrunc (s.money * s.share_portion / spyAsk)
    { s with share_buy_price := spyAsk,
             share_qty := sq,
             share_cost_basis := (sq : ℚ) * spyAsk,
             holding := true }
  else s

/-- Model of `BuyTheClose`: a no-op while holding; otherwise the two legs, then the
script-owned cash is debited by both cost bases (line 275). -/
def buyTheClose (spyAsk : ℚ) (s : SState) : SState :=
  if s.holding then s
  else if (buyShareLeg spyAsk (buyOptionLeg s)).holding then
    { buyShareLeg spyAsk (buyOptionLeg s) with
      money := (buyShareLeg spyAsk (buyOptionLeg s)).money -
        (buyShareLeg spyAsk (buyOptionLeg s)).option_cost_basis -
        (buyShareLeg spyAsk (buyOptionLeg s)).share_cost_basis }
  else buyShareLeg spyAsk (buyOptionLeg s)

/-! ### `SellEverything` (lines 278-325) -/

/-- Lines 284-304 without the percentage `Debug` computation: sell the
straddle at the combined bid of the invested contracts plus `option_sell_offset`,
or fall back to the recorded buy price when the invested contracts were not
matched in the latest chain. -/
def sellOptionLeg (s : SState) : SState :=
  if 0 < s.option_qty then
    let option_price :=
      match s.call_invested, s.put_invested with
      | some ci, some pi => ci.bidPrice + pi.bidPrice + s.option_sell_offset
      | _, _ => s.option_buy_price
    let option_credit := option_price * (s.option_qty : ℚ) * 100
    { s with option_total_profit :=
               s.option_total_profit + (option_credit - s.option_cost_basis),
             money := s.money + option_credit,
             option_qty := 0 }
  else s

/-- Lines 306-317 without the percentage `Debug` computation. -/
def sellShareLeg (spyBid : ℚ) (s : SState) : SState :=
  if 0 < s.share_qty then
    let share_credit := (s.share_qty : ℚ) * spyBid
    { s with share_total_profit :=
               s.share_total_profit + (share_credit - s.share_cost_basis),
             money := s.money + share_credit,
             share_qty := 0 }
  else s

/-- Model of `SellEverything`.  The three `ZeroDivisionError` sites of the Python
body are modelled explicitly: `option_pct` (line 297) raises when
`option_cost_basis` is zero, before any `self.*` assignment of the option
block; `share_pct` (line 310) raises after the option block completed; and
`day_pct` (line 319) raises after both blocks, in each case leaving
`holding` and the cost bases unreset. -/
def sellEverything (spyBid : ℚ) (s : SState) : SState :=
  if s.holding then
    if 0 < s.option_qty ∧ s.option_cost_basis = 0 then s
    else if 0 < (sellOptionLeg s).share_qty ∧ (sellOptionLeg s).share_cost_basis = 0 then
      sellOptionLeg s
    else if (sellShareLeg spyBid (sellOptionLeg s)).share_cost_basis +
        (sellShareLeg spyBid (sellOptionLeg s)).option_cost_basis = 0 then
      sellShareLeg spyBid (sellOptionLeg s)
    else
      { sellShareLeg spyBid (sellOptionLeg s) with
        holding := false, option_cost_basis := 0, share_cost_basis := 0 }
  else s

/-! ### The remaining scheduled handlers (lines 215-216, 328-343) -/

/-- The handler `PauseBeforeOnData` only sleeps. -/
def pauseBeforeOnData (s : SState) : SState := s

/-- Model of `SellTheOpen`; `cbDay` is the host-calendar test of `self.Time` against
`self.cb_days` (lines 330-333). -/
def sellTheOpen (cbDay : Bool) (spyBid : ℚ) (s : SState) : SState :=
  let s1 := if cbDay then { s with circuit_breaker := true } else s
  if s1.circuit_breaker then s1 else sellEverything spyBid s1

/-- Model of `SellAfterCircuitBreaker`. -/
def sellAfterCircuitBreaker (spyBid : ℚ) (s : SState) : SState :=
  if s.circuit_breaker then
    sellEverything spyBid { s with circuit_breaker := false }
  else s

/-- States reachable from the constructor through the data callback and the
scheduled handlers, with arbitrary host-supplied chains, quotes and
calendar answers. -/
inductive Reachable : SState → Prop where
  | init : ∀ t : ℤ, Reachable (initState t)
  | onData : ∀ (s : SState) (ch : Chain), Reachable s → Reachable (onDataChain ch s)
  | pause : ∀ s : SState, Reachable s → Reachable (pauseBeforeOnData s)
  | sellOpen : ∀ (s : SState) (cb : Bool) (bid : ℚ),
      Reachable s → Reachable (sellTheOpen cb bid s)
  | sellCB : ∀ (s : SState) (bid : ℚ),
      Reachable s → Reachable (sellAfterCircuitBreaker bid s)
  | buyClose : ∀ (s : SState) (ask : ℚ),
      Reachable s → Reachable (buyTheClose ask s)

/-! ### The `SpyEndOfDayPump` script -/

/-- The only script-owned attribute of `SpyEndOfDayPump` besides host
objects: `self.yest_price`. -/
structure PState where
  yest_price : ℚ
deriving DecidableEq, Repr

/-- Host API calls a handler can issue. -/
inductive HostAction where
  | setHoldings : String → ℚ → HostAction
  | marketOnCloseOrder : String → ℤ → HostAction
deriving DecidableEq, Repr

/-- Model of `BuyEodPump` as intended by lines 40-49 (the file itself does not parse,
see `pumpLine42`): `lastP` is `Securities["SPY"].Last`, `priceP` is
`Securities["SPY"].Price`, `portQty` the host portfolio quantity read after
`SetHoldings`.  The Python float literal `0.97` is idealised to `97/100`. -/
def buyEodPump (lastP priceP : ℚ) (portQty : ℤ) (s : PState) : PState × List HostAction :=
  let acts :=
    if s.yest_price * (97 / 100) < lastP then
      [HostAction.setHoldings "SPY" 1, HostAction.marketOnCloseOrder "SPY" portQty]
    else []
  (⟨priceP⟩, acts)

/-- Line 42 of `SpyLast15Minutes.py`, stripped of indentation. -/
def pumpLine42 : String :=
  "if self.Securities[\"SPY\"].Last > (self.yest_price * 0.97)"

/-- A Python compound-statement header must end in a colon. -/
def endsWithColon (l : String) : Bool := l.endsWith ":"

/-- The line opens an `if` statement. -/
def opensIfStatement (l : String) : Bool := l.startsWith "if "

/-! ### Scheduling and option-filter configuration (`Initialize` bodies) -/

inductive DateRule where
  | everyDay : String → DateRule
deriving DecidableEq, Repr

inductive TimeRule where
  | afterMarketOpen : String → ℚ → TimeRule
  | beforeMarketClose : String → ℚ → TimeRule
deriving DecidableEq, Repr

inductive HandlerTag where
  | pauseBeforeOnData : HandlerTag
  | sellTheOpen : HandlerTag
  | sellAfterCircuitBreaker : HandlerTag
  | buyTheClose : HandlerTag
  | buyEodPump : HandlerTag
deriving DecidableEq, Repr

structure ScheduleEntry where
  dateRule : DateRule
  timeRule : TimeRule
  handler : HandlerTag
deriving DecidableEq, Repr

/-- What a constructor registers: schedule entries in source order, plus the
option-chain filter when `AddOption`/`SetFilter` is called (strike range and
expiry window in days). -/
structure AlgoConfig where
  schedule : List ScheduleEntry
  optionFilter : Option (ℤ × ℤ × ℕ × ℕ)
deriving DecidableEq, Repr

/-- Registrations made by `SpyEndOfDayPump.Initialize` (line 34): one
handler, no option subscription and no option filter. -/
def pumpConfig : AlgoConfig :=
  { schedule :=
      [⟨DateRule.everyDay "SPY", TimeRule.beforeMarketClose "SPY" 15,
        HandlerTag.buyEodPump⟩]
    optionFilter := none }

/-- Registrations made by `SpyStraddleCloseToOpen.Initialize` (lines 73,
77-85): five handlers and `SetFilter(-30, 20, timedelta(56), timedelta(96))`. -/
def straddleConfig : AlgoConfig :=
  { schedule :=
      [⟨DateRule.everyDay "SPY", TimeRule.afterMarketOpen "SPY" 1,
        HandlerTag.pauseBeforeOnData⟩,
       ⟨DateRule.everyDay "SPY", TimeRule.afterMarketOpen "SPY" 2,
        HandlerTag.sellTheOpen⟩,
       ⟨DateRule.everyDay "SPY", TimeRule.afterMarketOpen "SPY" 30,
        HandlerTag.sellAfterCircuitBreaker⟩,
       ⟨DateRule.everyDay "SPY", TimeRule.beforeMarketClose "SPY" 11,
        HandlerTag.pauseBeforeOnData⟩,
       ⟨DateRule.everyDay "SPY", TimeRule.beforeMarketClose "SPY" 10,
        HandlerTag.buyTheClose⟩]
    optionFilter := some (-30, 20, 56, 96) }

/-- A buy or sell trigger (every handler except the pause helper). -/
def isBuySell : HandlerTag → Bool
  | HandlerTag.pauseBeforeOnData => false
  | _ => true

/-! ### Concrete host data used by witnesses and counterexamples -/

/-- Day-one call: quoted 0 bid / 499.58 ask (the v0.2 comments of the script
record that such bad option data does occur on the platform). -/
def c1y : Contract := ⟨"SPYC1", 297, 100, 0, 0, 24979 / 50, 300⟩

def p1y : Contract := ⟨"SPYP1", 297, 100, 1, 0, 24979 / 50, 300⟩

def ch1 : Chain := ⟨300, [c1y, p1y]⟩

/-- Day-two call: quoted 0 bid / 0.05 ask. -/
def c2y : Contract := ⟨"SPYC2", 300, 130, 0, 0, 1 / 20, 300⟩

def p2y : Contract := ⟨"SPYP2", 300, 130, 1, 0, 1 / 20, 300⟩

def ch2 : Chain := ⟨300, [c2y, p2y]⟩

/-- Two trading days of the straddle script against the quotes above:
buy at the close of day one (SPY ask 50000 models an absurd quote; any ask
above 50000 with a bid near 0 gives the same shape), sell at the open of
day two, buy again at the close of day two, sell at the open of day three. -/
def cexState : SState :=
  sellTheOpen false 0 (buyTheClose 50
    (onDataChain ch2 (sellTheOpen false 0
      (buyTheClose 50000 (onDataChain ch1 (initState 0))))))

def cwA : Contract := ⟨"CWA", 300, 100, 0, 1, 2, 303⟩

def cwB : Contract := ⟨"CWB", 302, 130, 0, 1, 2, 303⟩

def pwA : Contract := ⟨"PWA", 300, 100, 1, 1, 2, 303⟩

def pwB : Contract := ⟨"PWB", 301, 130, 1, 1, 2, 303⟩

/-- A chain with two strikes and two expiries on each side. -/
def chW : Chain := ⟨303, [cwA, cwB, pwA, pwB]⟩

def callC : Contract := ⟨"CS", 300, 100, 0, 1, 2, 300⟩

def putP : Contract := ⟨"PS", 300, 100, 1, 1, 2, 300⟩

/-- A chain with seven calls and seven puts. -/
def ch7 : Chain := ⟨300, List.replicate 7 callC ++ List.replicate 7 putP⟩

/-- Contracts whose symbols contain the pipe the loop rejects. -/
def cBad : Contract := ⟨"C|1", 300, 100, 0, 1, 2, 300⟩

def pBad : Contract := ⟨"P|1", 300, 100, 1, 1, 2, 300⟩

def chBad : Chain := ⟨300, [cBad, pBad]⟩

def c6m : Contract := ⟨"C6", 300, 100, 0, 1, 3, 300⟩

def p6m : Contract := ⟨"P6", 300, 100, 1, 2, 4, 300⟩

/-- A holding state whose invested contracts were matched in the chain. -/
def s6m : SState :=
  { initState 0 with holding := true, option_qty := 2, option_cost_basis := 220,
                     call_invested := some c6m, put_invested := some p6m }

/-- A holding state whose invested contracts were not matched: as after
`BuyTheClose` bought 2 straddles at 1.00 (cost basis 2·1·100 + 20) and a
later `OnData` found no contract at the recorded expiry and strike. -/
def s6u : SState :=
  { initState 0 with holding := true, option_qty := 2, option_buy_price := 1,
                     option_cost_basis := 220 }

/-! ### Invariants of the straddle script -/

/-- The position-related fields a handler may mutate: `holding`, both
quantities, both cost bases. -/
def coreOf (s : SState) : Bool × ℤ × ℤ × ℚ × ℚ :=
  (s.holding, s.option_qty, s.share_qty, s.option_cost_basis, s.share_cost_basis)

/-- The invariant claimed for the script: while not holding, both
quantities are zero. -/
def flatWhenNotHolding (s : SState) : Prop :=
  s.holding = false → s.option_qty = 0 ∧ s.share_qty = 0

/-- The strengthened, inductively preserved invariant: while not holding
everything position-related is zero, and quantities never go negative. -/
def Inv2 (s : SState) : Prop :=
  (s.holding = false → s.option_qty = 0 ∧ s.share_qty = 0 ∧
    s.option_cost_basis = 0 ∧ s.share_cost_basis = 0) ∧
  0 ≤ s.option_qty ∧ 0 ≤ s.share_qty

/-- The straddle buy price `BuyTheClose` would compute is positive (true
when no candidate pair is pending, since the option leg is skipped then). -/
def priceOkB (s : SState) : Bool :=
  match s.call_now, s.put_now with
  | some cn, some pn => decide (0 < getStraddleMidPrice cn pn + s.option_buy_offset)
  | _, _ => true

/-- Preconditions under which `BuyTheClose` computes nonnegative
quantities: the option budget covers the 20.00 fee, the share budget and
the SPY ask are nonnegative, and the computed straddle price is positive. -/
def buyOk (spyAsk : ℚ) (s : SState) : Prop :=
  20 ≤ s.money * s.option_portion ∧ 0 ≤ s.money * s.share_portion ∧
    0 ≤ spyAsk ∧ priceOkB s = true

/-! ### General lemmas about the stable sort and helpers -/

theorem sInsert_perm {α : Type} (le : α → α → Bool) (a : α) :
    ∀ l : List α, List.Perm (sInsert le a l) (a :: l) := by
  intro l
  induction l with
  | nil => simp [sInsert]
  | cons b l ih =>
    simp only [sInsert]
    split
    · exact List.Perm.refl _
    · exact List.Perm.trans (List.Perm.cons b ih) (List.Perm.swap a b l)

theorem isort_perm {α : Type} (le : α → α → Bool) :
    ∀ l : List α, List.Perm (isort le l) l := by
  intro l
  induction l with
  | nil => exact List.Perm.refl _
  | cons a l ih =>
    exact List.Perm.trans (sInsert_perm le a (isort le l)) (List.Perm.cons a ih)

theorem length_isort {α : Type} (le : α → α → Bool) (l : List α) :
    (isort le l).length = l.length :=
  (isort_perm le l).length_eq

theorem mem_isort {α : Type} (le : α → α → Bool) (l : List α) (x : α) :
    x ∈ isort le l ↔ x ∈ l :=
  (isort_perm le l).mem_iff

theorem pairwise_sInsert {α : Type} {le : α → α → Bool}
    (tot : ∀ x y, le x y = false → le y x = true)
    (tr : ∀ x y z, le x y = true → le y z = true → le x z = true)
    (a : α) :
    ∀ l : List α, l.Pairwise (fun x y => le x y = true) →
      (sInsert le a l).Pairwise (fun x y => le x y = true) := by
  intro l
  induction l with
  | nil => intro _; simp [sInsert]
  | cons b l ih =>
    intro hp
    rcases List.pairwise_cons.mp hp with ⟨hb, hl⟩
    simp only [sInsert]
    split
    next hab =>
      refine List.pairwise_cons.mpr ⟨?_, hp⟩
      intro x hx
      rcases List.mem_cons.mp hx with hxb | hx
      · rw [hxb]; exact hab
      · exact tr a b x hab (hb x hx)
    next hab =>
      have hab' : le a b = false := by
        cases h : le a b
        · rfl
        · exact absurd h hab
      refine List.pairwise_cons.mpr ⟨?_, ih hl⟩
      intro x hx
      rcases List.mem_cons.mp ((sInsert_perm le a l).mem_iff.mp hx) with hxa | hx'
      · rw [hxa]; exact tot a b hab'
      · exact hb x hx'

theorem pairwise_isort {α : Type} {le : α → α → Bool}
    (tot : ∀ x y, le x y = false → le y x = true)
    (tr : ∀ x y z, le x y = true → le y z = true → le x z = true) :
    ∀ l : List α, (isort le l).Pairwise (fun x y => le x y = true) := by
  intro l
  induction l with
  | nil => simp [isort]
  | cons a l ih => exact pairwise_sInsert tot tr a (isort le l) ih

theorem filter_sInsert {α : Type} {le : α → α → Bool} {p : α → Bool}
    (hpp : ∀ x y, p x = true → p y = true → le x y = true) (a : α) :
    ∀ l : List α, (sInsert le a l).filter p = ((a :: l).filter p) := by
  intro l
  induction l with
  | nil => simp [sInsert]
  | cons b l ih =>
    simp only [sInsert]
    split
    next hab => rfl
    next hab =>
      by_cases hpa : p a = true
      · by_cases hpb : p b = true
        · exact absurd (hpp a b hpa hpb) hab
        · simp [List.filter_cons, hpa, hpb, ih]
      · by_cases hpb : p b = true
        · simp [List.filter_cons, hpa, hpb, ih]
        · simp [List.filter_cons, hpa, hpb, ih]

/-- Stability of `isort`: a sort pass whose comparison cannot distinguish the
elements selected by `p` keeps those elements in their incoming order. -/
theorem filter_isort {α : Type} {le : α → α → Bool} {p : α → Bool}
    (hpp : ∀ x y, p x = true → p y = true → le x y = true) :
    ∀ l : List α, (isort le l).filter p = l.filter p := by
  intro l
  induction l with
  | nil => rfl
  | cons a l ih =>
    simp only [isort]
    rw [filter_sInsert hpp a]
    simp [List.filter_cons, ih]

theorem head_eq_cons {α : Type} {l : List α} {b : α} (h : l.head? = some b) :
    ∃ t, l = b :: t := by
  cases l with
  | nil => cases h
  | cons x t =>
    simp [List.head?] at h
    exact ⟨t, by rw [h]⟩

theorem head_rel {α : Type} {R : α → α → Prop} :
    ∀ {l : List α} {b : α}, l.head? = some b → l.Pairwise R →
      ∀ c ∈ l, c = b ∨ R b c := by
  intro l b hb hp c hc
  cases l with
  | nil => cases hb
  | cons x t =>
    have hxb : x = b := by
      simp [List.head?] at hb
      exact hb
    subst hxb
    rcases List.mem_cons.mp hc with rfl | hct
    · exact Or.inl rfl
    · exact Or.inr ((List.pairwise_cons.mp hp).1 c hct)

theorem expiryGe_tot : ∀ x y, expiryGe x y = false → expiryGe y x = true := by
  intro x y h
  simp only [expiryGe, decide_eq_false_iff_not] at h
  simp only [expiryGe, decide_eq_true_eq]
  omega

theorem expiryGe_tr :
    ∀ x y z, expiryGe x y = true → expiryGe y z = true → expiryGe x z = true := by
  intro x y z h1 h2
  simp only [expiryGe, decide_eq_true_eq] at h1 h2 ⊢
  omega

theorem distLe_tot (so u : ℚ) :
    ∀ x y, distLe so u x y = false → distLe so u y x = true := by
  intro x y h
  simp only [distLe, decide_eq_false_iff_not] at h
  simp only [distLe, decide_eq_true_eq]
  exact le_of_not_le h

theorem distLe_tr (so u : ℚ) :
    ∀ x y z, distLe so u x y = true → distLe so u y z = true →
      distLe so u x z = true := by
  intro x y z h1 h2
  simp only [distLe, decide_eq_true_eq] at h1 h2 ⊢
  exact le_trans h1 h2

/-- The head of the double-sorted candidate list is drawn from the source
list, carries its maximal expiry, and among the source elements of that
expiry its strike distance is minimal. -/
theorem head_best {so u : ℚ} {l : List Contract} {b : Contract}
    (hb : (isort expiryGe (isort (distLe so u) l)).head? = some b) :
    b ∈ l ∧ (∀ c ∈ l, c.expiry ≤ b.expiry) ∧
      (∀ c ∈ l, c.expiry = b.expiry → strikeDist so u b ≤ strikeDist so u c) := by
  set pass1 := isort (distLe so u) l with hpass1
  set final := isort expiryGe pass1 with hfinal
  have hperm1 : List.Perm pass1 l := isort_perm _ l
  have hperm2 : List.Perm final pass1 := isort_perm _ pass1
  have hpermL : List.Perm final l := hperm2.trans hperm1
  obtain ⟨t, hft⟩ := head_eq_cons hb
  have hbfin : b ∈ final := by
    rw [hft]; exact List.mem_cons_self b t
  have hbl : b ∈ l := hpermL.mem_iff.mp hbfin
  have hpair : final.Pairwise (fun x y => expiryGe x y = true) :=
    pairwise_isort expiryGe_tot expiryGe_tr pass1
  refine ⟨hbl, ?_, ?_⟩
  · intro c hc
    have hcfin : c ∈ final := hpermL.mem_iff.mpr hc
    rcases head_rel hb hpair c hcfin with rfl | hrel
    · exact le_refl _
    · simpa [expiryGe, decide_eq_true_eq] using hrel
  · intro c hc hce
    set p : Contract → Bool := fun x => decide (x.expiry = b.expiry) with hp
    have hpp : ∀ x y, p x = true → p y = true → expiryGe x y = true := by
      intro x y hx hy
      simp only [hp, decide_eq_true_eq] at hx hy
      simp only [expiryGe, decide_eq_true_eq]
      omega
    have hstab : final.filter p = pass1.filter p := filter_isort hpp pass1
    have hheadF : (final.filter p).head? = some b := by
      rw [hft]
      simp [List.filter_cons, hp]
    have hpairF : (final.filter p).Pairwise
        (fun x y => distLe so u x y = true) := by
      have hpair1 : pass1.Pairwise (fun x y => distLe so u x y = true) :=
        pairwise_isort (distLe_tot so u) (distLe_tr so u) l
      rw [hstab]
      exact List.Pairwise.sublist (List.filter_sublist pass1) hpair1
    have hcF : c ∈ final.filter p := by
      rw [hstab]
      refine List.mem_filter.mpr ⟨hperm1.mem_iff.mpr hc, ?_⟩
      simp [hp, hce]
    rcases head_rel hheadF hpairF c hcF with rfl | hrel
    · exact le_refl _
    · simpa [distLe, decide_eq_true_eq] using hrel

theorem sevenTry_ne_oob (cs ps : List Contract) :
    ∀ (t j : ℕ), j + t ≤ cs.length → j + t ≤ ps.length →
      sevenTry cs ps j t ≠ LoopResult.oob := by
  intro t
  induction t with
  | zero => intro j h1 h2; simp [sevenTry]
  | succ t ih =>
    intro j h1 h2
    have hj1 : j < cs.length := by omega
    have hj2 : j < ps.length := by omega
    have hc : cs.get? j = some (cs.get ⟨j, hj1⟩) := List.get?_eq_get hj1
    have hp : ps.get? j = some (ps.get ⟨j, hj2⟩) := List.get?_eq_get hj2
    simp only [sevenTry, hc, hp]
    split
    · exact ih (j + 1) (by omega) (by omega)
    · simp

theorem pyTrunc_nonneg {q : ℚ} (h : 0 ≤ q) : 0 ≤ pyTrunc q :=
  Int.tdiv_nonneg (Rat.num_nonneg.mpr h) (Int.ofNat_nonneg q.den)

theorem buyTheClose_not_holding (ask : ℚ) (s : SState) (hh : s.holding = false) :
    buyTheClose ask s =
      if (buyShareLeg ask (buyOptionLeg s)).holding then
        { buyShareLeg ask (buyOptionLeg s) with
          money := (buyShareLeg ask (buyOptionLeg s)).money -
            (buyShareLeg ask (buyOptionLeg s)).option_cost_basis -
            (buyShareLeg ask (buyOptionLeg s)).share_cost_basis }
      else buyShareLeg ask (buyOptionLeg s) := by
  unfold buyTheClose
  rw [hh]
  rfl

theorem buyOptionLeg_some (s : SState) (cn pn : Contract) (hop : 0 < s.option_portion)
    (hcn : s.call_now = some cn) (hpn : s.put_now = some pn) :
    buyOptionLeg s =
      ({ s with expiry := cn.expiry, strike := cn.strike,
                spy_price_invested := cn.underlyingLastPrice,
                option_buy_price := getStraddleMidPrice cn pn + s.option_buy_offset,
                option_qty := pyTrunc ((s.money * s.option_portion - 20) /
                  ((getStraddleMidPrice cn pn + s.option_buy_offset) * 100)),
                option_cost_basis := (pyTrunc ((s.money * s.option_portion - 20) /
                    ((getStraddleMidPrice cn pn + s.option_buy_offset) * 100)) : ℚ) *
                  (getStraddleMidPrice cn pn + s.option_buy_offset) * 100 + 20,
                fees := s.fees + 20,
                call_invested := some cn, put_invested := some pn,
                holding := true }, true) := by
  unfold buyOptionLeg
  rw [if_pos hop, hcn, hpn]

theorem buyShareLeg_pos (ask : ℚ) (x : SState × Bool)
    (h : 0 < x.1.share_portion ∧ x.2 = true) :
    buyShareLeg ask x =
      { x.1 with share_buy_price := ask,
                 share_qty := pyTrunc (x.1.money * x.1.share_portion / ask),
                 share_cost_basis :=
                   (pyTrunc (x.1.money * x.1.share_portion / ask) : ℚ) * ask,
                 holding := true } := by
  unfold buyShareLeg
  rw [if_pos h]

theorem buyShareLeg_neg (ask : ℚ) (x : SState × Bool)
    (h : ¬(0 < x.1.share_portion ∧ x.2 = true)) :
    buyShareLeg ask x = x.1 := by
  unfold buyShareLeg
  rw [if_neg h]

theorem sellShareLeg_otp (bid : ℚ) (s : SState) :
    (sellShareLeg bid s).option_total_profit = s.option_total_profit := by
  unfold sellShareLeg
  split
  · rfl
  · rfl

/-- Running `SellEverything` from a holding state whose option block does not hit
the `option_pct` division by zero changes `option_total_profit` exactly as
the option block does. -/
theorem sellEverything_otp (bid : ℚ) (s : SState) (hh : s.holding = true)
    (hg : ¬(0 < s.option_qty ∧ s.option_cost_basis = 0)) :
    (sellEverything bid s).option_total_profit =
      (sellOptionLeg s).option_total_profit := by
  unfold sellEverything
  rw [hh, if_pos rfl, if_neg hg]
  by_cases hshare : 0 < (sellOptionLeg s).share_qty ∧
      (sellOptionLeg s).share_cost_basis = 0
  · rw [if_pos hshare]
  · rw [if_neg hshare]
    by_cases hday : (sellShareLeg bid (sellOptionLeg s)).share_cost_basis +
        (sellShareLeg bid (sellOptionLeg s)).option_cost_basis = 0
    · rw [if_pos hday]
      exact sellShareLeg_otp bid (sellOptionLeg s)
    · rw [if_neg hday]
      exact sellShareLeg_otp bid (sellOptionLeg s)

theorem sellOptionLeg_otp_matched (s : SState) (ci pi : Contract)
    (hq : 0 < s.option_qty) (hci : s.call_invested = some ci)
    (hpi : s.put_invested = some pi) :
    (sellOptionLeg s).option_total_profit =
      s.option_total_profit + ((ci.bidPrice + pi.bidPrice + s.option_sell_offset) *
        (s.option_qty : ℚ) * 100 - s.option_cost_basis) := by
  unfold sellOptionLeg
  rw [if_pos hq, hci, hpi]

theorem sellOptionLeg_otp_unmatched (s : SState) (hq : 0 < s.option_qty)
    (hun : s.call_invested = none ∨ s.put_invested = none) :
    (sellOptionLeg s).option_total_profit =
      s.option_total_profit +
        (s.option_buy_price * (s.option_qty : ℚ) * 100 - s.option_cost_basis) := by
  unfold sellOptionLeg
  rw [if_pos hq]
  rcases hun with h | h
  · rw [h]
  · rw [h]
    cases hc : s.call_invested
    · rfl
    · rfl

theorem buyTheClose_holding (ask : ℚ) (s : SState) (hh : s.holding = true) :
    buyTheClose ask s = s := by
  unfold buyTheClose
  rw [hh]
  rfl

theorem buyOptionLeg_noportion (s : SState) (hop : ¬ 0 < s.option_portion) :
    buyOptionLeg s = (s, true) := by
  unfold buyOptionLeg
  rw [if_neg hop]

theorem buyOptionLeg_nodata (s : SState) (hop : 0 < s.option_portion)
    (hun : s.call_now = none ∨ s.put_now = none) :
    buyOptionLeg s = (s, false) := by
  unfold buyOptionLeg
  rw [if_pos hop]
  rcases hun with h | h
  · rw [h]
  · rw [h]
    cases hc : s.call_now
    · rfl
    · rfl

theorem sellEverything_not_holding (bid : ℚ) (s : SState) (hh : s.holding = false) :
    sellEverything bid s = s := by
  unfold sellEverything
  rw [hh]
  rfl

theorem sellOptionLeg_holding (s : SState) :
    (sellOptionLeg s).holding = s.holding := by
  unfold sellOptionLeg
  split
  · rfl
  · rfl

theorem sellOptionLeg_sq (s : SState) :
    (sellOptionLeg s).share_qty = s.share_qty := by
  unfold sellOptionLeg
  split
  · rfl
  · rfl

theorem sellOptionLeg_ocb (s : SState) :
    (sellOptionLeg s).option_cost_basis = s.option_cost_basis := by
  unfold sellOptionLeg
  split
  · rfl
  · rfl

theorem sellOptionLeg_scb (s : SState) :
    (sellOptionLeg s).share_cost_basis = s.share_cost_basis := by
  unfold sellOptionLeg
  split
  · rfl
  · rfl

theorem sellOptionLeg_oq_zero (s : SState) (h : 0 ≤ s.option_qty) :
    (sellOptionLeg s).option_qty = 0 := by
  unfold sellOptionLeg
  by_cases hq : 0 < s.option_qty
  · rw [if_pos hq]
  · rw [if_neg hq]
    omega

theorem sellShareLeg_holding (bid : ℚ) (s : SState) :
    (sellShareLeg bid s).holding = s.holding := by
  unfold sellShareLeg
  split
  · rfl
  · rfl

theorem sellShareLeg_oq (bid : ℚ) (s : SState) :
    (sellShareLeg bid s).option_qty = s.option_qty := by
  unfold sellShareLeg
  split
  · rfl
  · rfl

theorem sellShareLeg_ocb (bid : ℚ) (s : SState) :
    (sellShareLeg bid s).option_cost_basis = s.option_cost_basis := by
  unfold sellShareLeg
  split
  · rfl
  · rfl

theorem sellShareLeg_scb (bid : ℚ) (s : SState) :
    (sellShareLeg bid s).share_cost_basis = s.share_cost_basis := by
  unfold sellShareLeg
  split
  · rfl
  · rfl

theorem sellShareLeg_sq_zero (bid : ℚ) (s : SState) (h : 0 ≤ s.share_qty) :
    (sellShareLeg bid s).share_qty = 0 := by
  unfold sellShareLeg
  by_cases hq : 0 < s.share_qty
  · rw [if_pos hq]
  · rw [if_neg hq]
    omega

theorem investedBlock_core (ch : Chain) (s : SState) :
    coreOf (investedBlock ch s) = coreOf s := by
  unfold investedBlock
  split
  · split <;> rfl
  · rfl

theorem onDataChain_core (ch : Chain) (s : SState) :
    coreOf (onDataChain ch s) = coreOf s := by
  unfold onDataChain
  split
  · rw [investedBlock_core]
    rfl
  · split
    · rw [investedBlock_core]
      rfl
    · rw [investedBlock_core]
      rfl
    · rfl

theorem inv2_of_core {s' s : SState} (h : coreOf s' = coreOf s) (hI : Inv2 s) :
    Inv2 s' := by
  unfold coreOf at h
  simp only [Prod.mk.injEq] at h
  obtain ⟨h1, h2, h3, h4, h5⟩ := h
  unfold Inv2 at hI ⊢
  rw [h1, h2, h3, h4, h5]
  exact hI

theorem inv2_sellEverything (bid : ℚ) (s : SState) (hI : Inv2 s) :
    Inv2 (sellEverything bid s) := by
  by_cases hh : s.holding = true
  · unfold sellEverything
    rw [hh, if_pos rfl]
    by_cases hg1 : 0 < s.option_qty ∧ s.option_cost_basis = 0
    · rw [if_pos hg1]
      exact hI
    · rw [if_neg hg1]
      by_cases hg2 : 0 < (sellOptionLeg s).share_qty ∧
          (sellOptionLeg s).share_cost_basis = 0
      · rw [if_pos hg2]
        unfold Inv2
        refine ⟨fun hcon => ?_, ?_, ?_⟩
        · rw [sellOptionLeg_holding s, hh] at hcon
          cases hcon
        · rw [sellOptionLeg_oq_zero s hI.2.1]
        · rw [sellOptionLeg_sq s]
          exact hI.2.2
      · rw [if_neg hg2]
        by_cases hg3 : (sellShareLeg bid (sellOptionLeg s)).share_cost_basis +
            (sellShareLeg bid (sellOptionLeg s)).option_cost_basis = 0
        · rw [if_pos hg3]
          unfold Inv2
          refine ⟨fun hcon => ?_, ?_, ?_⟩
          · rw [sellShareLeg_holding, sellOptionLeg_holding s, hh] at hcon
            cases hcon
          · rw [sellShareLeg_oq, sellOptionLeg_oq_zero s hI.2.1]
          · rw [sellShareLeg_sq_zero bid (sellOptionLeg s)
              (by rw [sellOptionLeg_sq s]; exact hI.2.2)]
        · rw [if_neg hg3]
          unfold Inv2
          refine ⟨fun _ => ⟨?_, ?_, rfl, rfl⟩, ?_, ?_⟩
          · show (sellShareLeg bid (sellOptionLeg s)).option_qty = 0
            rw [sellShareLeg_oq, sellOptionLeg_oq_zero s hI.2.1]
          · show (sellShareLeg bid (sellOptionLeg s)).share_qty = 0
            rw [sellShareLeg_sq_zero bid (sellOptionLeg s)
              (by rw [sellOptionLeg_sq s]; exact hI.2.2)]
          · show 0 ≤ (sellShareLeg bid (sellOptionLeg s)).option_qty
            rw [sellShareLeg_oq, sellOptionLeg_oq_zero s hI.2.1]
          · show 0 ≤ (sellShareLeg bid (sellOptionLeg s)).share_qty
            rw [sellShareLeg_sq_zero bid (sellOptionLeg s)
              (by rw [sellOptionLeg_sq s]; exact hI.2.2)]
  · have hh' : s.holding = false := by simpa using hh
    rw [sellEverything_not_holding bid s hh']
    exact hI

theorem inv2_sellTheOpen (cb : Bool) (bid : ℚ) (s : SState) (hI : Inv2 s) :
    Inv2 (sellTheOpen cb bid s) := by
  cases cb
  · show Inv2 (if s.circuit_breaker = true then s else sellEverything bid s)
    by_cases hcb : s.circuit_breaker = true
    · rw [if_pos hcb]
      exact hI
    · rw [if_neg hcb]
      exact inv2_sellEverything bid s hI
  · exact inv2_of_core rfl hI

theorem inv2_sellAfterCircuitBreaker (bid : ℚ) (s : SState) (hI : Inv2 s) :
    Inv2 (sellAfterCircuitBreaker bid s) := by
  unfold sellAfterCircuitBreaker
  by_cases hcb : s.circuit_breaker = true
  · rw [if_pos hcb]
    exact inv2_sellEverything bid _ (inv2_of_core rfl hI)
  · rw [if_neg hcb]
    exact hI

theorem inv2_buyTheClose (ask : ℚ) (s : SState) (hI : Inv2 s)
    (hb : buyOk ask s) : Inv2 (buyTheClose ask s) := by
  obtain ⟨hb1, hb2, hb3, hb4⟩ := hb
  by_cases hh : s.holding = true
  · rw [buyTheClose_holding ask s hh]
    exact hI
  · have hh' : s.holding = false := by simpa using hh
    rw [buyTheClose_not_holding ask s hh']
    by_cases hop : 0 < s.option_portion
    · rcases hcn : s.call_now with _ | cn
      · rw [buyOptionLeg_nodata s hop (Or.inl hcn),
            buyShareLeg_neg ask _ (fun hcon => by cases hcon.2)]
        rw [hh']
        exact hI
      · rcases hpn : s.put_now with _ | pn
        · rw [buyOptionLeg_nodata s hop (Or.inr hpn),
              buyShareLeg_neg ask _ (fun hcon => by cases hcon.2)]
          rw [hh']
          exact hI
        · have hobp : 0 < getStraddleMidPrice cn pn + s.option_buy_offset := by
            unfold priceOkB at hb4
            rw [hcn, hpn] at hb4
            exact of_decide_eq_true hb4
          have hoq : 0 ≤ pyTrunc ((s.money * s.option_portion - 20) /
              ((getStraddleMidPrice cn pn + s.option_buy_offset) * 100)) := by
            apply pyTrunc_nonneg
            apply div_nonneg
            · linarith
            · positivity
          rw [buyOptionLeg_some s cn pn hop hcn hpn]
          by_cases hsp : 0 < s.share_portion
          · rw [buyShareLeg_pos ask _ ⟨hsp, rfl⟩]
            unfold Inv2
            refine ⟨?_, ?_, ?_⟩
            · intro hcon
              exact Bool.noConfusion hcon
            · exact hoq
            · exact pyTrunc_nonneg (div_nonneg hb2 hb3)
          · rw [buyShareLeg_neg ask _ (fun hcon => hsp hcon.1)]
            unfold Inv2
            refine ⟨?_, ?_, ?_⟩
            · intro hcon
              exact Bool.noConfusion hcon
            · exact hoq
            · exact hI.2.2
    · rw [buyOptionLeg_noportion s hop]
      by_cases hsp : 0 < s.share_portion
      · rw [buyShareLeg_pos ask _ ⟨hsp, rfl⟩]
        unfold Inv2
        refine ⟨?_, ?_, ?_⟩
        · intro hcon
          exact Bool.noConfusion hcon
        · exact hI.2.1
        · exact pyTrunc_nonneg (div_nonneg hb2 hb3)
      · rw [buyShareLeg_neg ask _ (fun hcon => hsp hcon.1)]
        rw [hh']
        exact hI

theorem sellEverything_resets (bid : ℚ) (s : SState) (hI : Inv2 s)
    (h1 : 0 < s.option_qty → s.option_cost_basis ≠ 0)
    (h2 : 0 < s.share_qty → s.share_cost_basis ≠ 0)
    (h3 : s.holding = true → s.option_cost_basis + s.share_cost_basis ≠ 0) :
    (sellEverything bid s).holding = false ∧
    (sellEverything bid s).option_qty = 0 ∧
    (sellEverything bid s).share_qty = 0 ∧
    (sellEverything bid s).option_cost_basis = 0 ∧
    (sellEverything bid s).share_cost_basis = 0 := by
  by_cases hh : s.holding = true
  · unfold sellEverything
    rw [hh, if_pos rfl]
    rw [if_neg (fun hcon => h1 hcon.1 hcon.2)]
    have hg2 : ¬(0 < (sellOptionLeg s).share_qty ∧
        (sellOptionLeg s).share_cost_basis = 0) := by
      intro hcon
      rw [sellOptionLeg_sq s] at hcon
      rw [sellOptionLeg_scb s] at hcon
      exact h2 hcon.1 hcon.2
    rw [if_neg hg2]
    have hg3 : ¬((sellShareLeg bid (sellOptionLeg s)).share_cost_basis +
        (sellShareLeg bid (sellOptionLeg s)).option_cost_basis = 0) := by
      rw [sellShareLeg_scb, sellShareLeg_ocb, sellOptionLeg_scb, sellOptionLeg_ocb]
      intro hcon
      exact h3 hh (by linarith)
    rw [if_neg hg3]
    refine ⟨rfl, ?_, ?_, rfl, rfl⟩
    · show (sellShareLeg bid (sellOptionLeg s)).option_qty = 0
      rw [sellShareLeg_oq, sellOptionLeg_oq_zero s hI.2.1]
    · show (sellShareLeg bid (sellOptionLeg s)).share_qty = 0
      rw [sellShareLeg_sq_zero bid (sellOptionLeg s)
        (by rw [sellOptionLeg_sq s]; exact hI.2.2)]
  · have hh' : s.holding = false := by simpa using hh
    rw [sellEverything_not_holding bid s hh']
    obtain ⟨hq1, hq2, hcb1, hcb2⟩ := hI.1 hh'
    exact ⟨hh', hq1, hq2, hcb1, hcb2⟩

/-! ### Claim theorems -/

/-- C1: in `OnData`, the candidate put and call lists are the stable double
sort of the puts and calls of the chain — by absolute strike distance from
`underlying price + strike_offset`, then stably by expiry descending — so
the head of each list (when present) is a contract of its side with the
latest expiry, and among the contracts of that side with that expiry its strike
is closest to the offset-ATM target. -/
theorem claim1_candidate_sort (ch : Chain) (so : ℚ) (bc bp : Contract)
    (hc : (cctrcts so ch).head? = some bc) (hp : (pctrcts so ch).head? = some bp) :
    (bc ∈ callsOf ch ∧ bp ∈ putsOf ch) ∧
    (∀ c ∈ callsOf ch, c.expiry ≤ bc.expiry) ∧
    (∀ c ∈ callsOf ch, c.expiry = bc.expiry →
      strikeDist so ch.underlyingPrice bc ≤ strikeDist so ch.underlyingPrice c) ∧
    (∀ c ∈ putsOf ch, c.expiry ≤ bp.expiry) ∧
    (∀ c ∈ putsOf ch, c.expiry = bp.expiry →
      strikeDist so ch.underlyingPrice bp ≤ strikeDist so ch.underlyingPrice c) ∧
    List.Perm (cctrcts so ch) (callsOf ch) ∧
    List.Perm (pctrcts so ch) (putsOf ch) ∧
    (cctrcts so ch).Pairwise (fun x y => y.expiry ≤ x.expiry) ∧
    (pctrcts so ch).Pairwise (fun x y => y.expiry ≤ x.expiry) := by
  have h1 := @head_best so ch.underlyingPrice (callsOf ch) bc hc
  have h2 := @head_best so ch.underlyingPrice (putsOf ch) bp hp
  refine ⟨⟨h1.1, h2.1⟩, h1.2.1, h1.2.2, h2.2.1, h2.2.2, ?_, ?_, ?_, ?_⟩
  · exact (isort_perm _ _).trans (isort_perm _ _)
  · exact (isort_perm _ _).trans (isort_perm _ _)
  · exact (pairwise_isort expiryGe_tot expiryGe_tr _).imp
      (fun h => by simpa [expiryGe, decide_eq_true_eq] using h)
  · exact (pairwise_isort expiryGe_tot expiryGe_tr _).imp
      (fun h => by simpa [expiryGe, decide_eq_true_eq] using h)

/-- Witness for C1 on the four-contract chain `chW`: the theorem applies,
and both selected heads are contracts of their side of the chain. -/
theorem claim1_witness : cwB ∈ callsOf chW ∧ pwB ∈ putsOf chW :=
  (claim1_candidate_sort chW (-3) cwB pwB (by with_unfolding_all rfl)
    (by with_unfolding_all rfl)).1

/-- C2: `GetStraddleMidPrice` returns the arithmetic mean of the combined
ask and the combined bid, rounded to two decimal places. -/
theorem claim2_straddle_mid (call put : Contract) :
    getStraddleMidPrice call put =
      round2 (((call.askPrice + put.askPrice) + (call.bidPrice + put.bidPrice)) / 2) :=
  rfl

/-- C7: the seven-try loop indexes `cctrcts[j]`, `pctrcts[j]` for `j < 7`;
whenever both sides of the chain have at least 7 contracts every access is
in bounds, while on the chain `chBad` (one call and one put whose symbols
contain a pipe) the access at `j = 1` is out of bounds — in Python an
`IndexError`. -/
theorem claim7_seven_tries :
    (∀ (ch : Chain) (so : ℚ), 7 ≤ (callsOf ch).length → 7 ≤ (putsOf ch).length →
      sevenTry (cctrcts so ch) (pctrcts so ch) 0 7 ≠ LoopResult.oob) ∧
    sevenTry (cctrcts (-3) chBad) (pctrcts (-3) chBad) 0 7 = LoopResult.oob := by
  constructor
  · intro ch so hc hp
    apply sevenTry_ne_oob
    · unfold cctrcts
      rw [length_isort, length_isort]
      omega
    · unfold pctrcts
      rw [length_isort, length_isort]
      omega
  · with_unfolding_all rfl

/-- Witness for C7 on the chain `ch7` with seven contracts per side. -/
theorem claim7_witness :
    sevenTry (cctrcts (-3) ch7) (pctrcts (-3) ch7) 0 7 ≠ LoopResult.oob :=
  claim7_seven_tries.1 ch7 (-3) (by with_unfolding_all rfl) (by with_unfolding_all rfl)

/-- C3, counterexample: `BuyTheClose` is a scheduled handler, and one run
of it from the constructor state (after `OnData` supplied the chain `ch1`)
changes the script-owned cash `self.money`, the position quantity
`self.option_qty` and the cost basis `self.option_cost_basis`. -/
theorem claim3_cex :
    (buyTheClose 50000 (onDataChain ch1 (initState 0))).money ≠
      (onDataChain ch1 (initState 0)).money ∧
    (buyTheClose 50000 (onDataChain ch1 (initState 0))).option_qty ≠
      (onDataChain ch1 (initState 0)).option_qty ∧
    (buyTheClose 50000 (onDataChain ch1 (initState 0))).option_cost_basis ≠
      (onDataChain ch1 (initState 0)).option_cost_basis := by
  have e1 : (buyTheClose 50000 (onDataChain ch1 (initState 0))).money = 22 := by
    with_unfolding_all rfl
  have e2 : (onDataChain ch1 (initState 0)).money = 100000 := by
    with_unfolding_all rfl
  have e3 : (buyTheClose 50000 (onDataChain ch1 (initState 0))).option_qty = 1 := by
    with_unfolding_all rfl
  have e4 : (onDataChain ch1 (initState 0)).option_qty = 0 := by
    with_unfolding_all rfl
  have e5 : (buyTheClose 50000 (onDataChain ch1 (initState 0))).option_cost_basis
      = 49978 := by
    with_unfolding_all rfl
  have e6 : (onDataChain ch1 (initState 0)).option_cost_basis = 0 := by
    with_unfolding_all rfl
  rw [e1, e2, e3, e4, e5, e6]
  refine ⟨by norm_num, by norm_num, by norm_num⟩

/-- C3, amended: the script state of `SpyEndOfDayPump` is only the recorded
previous price (its handler hands everything else to host APIs), but
`SpyStraddleCloseToOpen` tracks positions itself: whenever `BuyTheClose`
runs with candidate contracts available, a positive computed straddle
price and a nonzero SPY ask — the inputs on which the Python body
completes, since a zero price raises `ZeroDivisionError` at line 249 and a
zero ask at line 268, aborting before the line-275 debit — it overwrites
the script-owned option quantity and cost basis and debits the
script-owned cash by the two cost bases. -/
theorem claim3_amended :
    (∀ (lastP priceP : ℚ) (portQty : ℤ) (s : PState),
      (buyEodPump lastP priceP portQty s).1 = ⟨priceP⟩) ∧
    (∀ (s : SState) (ask : ℚ) (cn pn : Contract),
      s.holding = false → 0 < s.option_portion →
      s.call_now = some cn → s.put_now = some pn →
      0 < getStraddleMidPrice cn pn + s.option_buy_offset →
      ask ≠ 0 →
      (buyTheClose ask s).option_qty =
        pyTrunc ((s.money * s.option_portion - 20) /
          ((getStraddleMidPrice cn pn + s.option_buy_offset) * 100)) ∧
      (buyTheClose ask s).option_cost_basis =
        ((buyTheClose ask s).option_qty : ℚ) *
          (getStraddleMidPrice cn pn + s.option_buy_offset) * 100 + 20 ∧
      (buyTheClose ask s).money =
        s.money - (buyTheClose ask s).option_cost_basis -
          (buyTheClose ask s).share_cost_basis ∧
      (buyTheClose ask s).holding = true) := by
  constructor
  · intro lastP priceP portQty s
    rfl
  · intro s ask cn pn hh hop hcn hpn hprice hask
    rw [buyTheClose_not_holding ask s hh, buyOptionLeg_some s cn pn hop hcn hpn]
    by_cases hsp : 0 < s.share_portion
    · rw [buyShareLeg_pos ask _ ⟨hsp, rfl⟩]
      exact ⟨rfl, rfl, rfl, rfl⟩
    · rw [buyShareLeg_neg ask _ (fun hcon => hsp hcon.1)]
      exact ⟨rfl, rfl, rfl, rfl⟩

/-- Witness for C3 (amended): the buy at the close of the `ch1` day goes
through and sets `holding`. -/
theorem claim3_witness :
    (buyTheClose 50000 (onDataChain ch1 (initState 0))).holding = true := by
  have hcall : (onDataChain ch1 (initState 0)).call_now = some c1y := by
    with_unfolding_all rfl
  have hput : (onDataChain ch1 (initState 0)).put_now = some p1y := by
    with_unfolding_all rfl
  have hhold : (onDataChain ch1 (initState 0)).holding = false := by
    with_unfolding_all rfl
  have hop : 0 < (onDataChain ch1 (initState 0)).option_portion := by
    rw [show (onDataChain ch1 (initState 0)).option_portion = 1 / 2 from by
      with_unfolding_all rfl]
    norm_num
  have hprice : 0 < getStraddleMidPrice c1y p1y +
      (onDataChain ch1 (initState 0)).option_buy_offset := by
    rw [show getStraddleMidPrice c1y p1y +
        (onDataChain ch1 (initState 0)).option_buy_offset = 24979 / 50 from by
      with_unfolding_all rfl]
    norm_num
  exact (claim3_amended.2 (onDataChain ch1 (initState 0)) 50000 c1y p1y
    hhold hop hcall hput hprice (by norm_num)).2.2.2

/-- C4, counterexample: `SpyEndOfDayPump.Initialize` registers a scheduled
handler but configures no option-chain filter (it never subscribes to
options at all). -/
theorem claim4_cex :
    pumpConfig.optionFilter = none ∧ pumpConfig.schedule ≠ [] := by
  refine ⟨rfl, by simp [pumpConfig]⟩

/-- C4, amended: both scripts define scheduled buy/sell handlers keyed to
market-open/close offsets, but only `SpyStraddleCloseToOpen` configures an
option-chain filter (`SetFilter(-30, 20, 56 days, 96 days)`);
`SpyEndOfDayPump` configures none. -/
theorem claim4_amended :
    pumpConfig.schedule ≠ [] ∧ straddleConfig.schedule ≠ [] ∧
    straddleConfig.optionFilter = some (-30, 20, 56, 96) ∧
    pumpConfig.optionFilter = none := by
  refine ⟨by simp [pumpConfig], by simp [straddleConfig], rfl, rfl⟩

/-- C5: the buy/sell triggers of both scripts are exactly the entries shown,
each registered with an every-trading-day date rule and a market-open or
market-close offset time rule: the pump buy at close − 15 minutes, the
straddle buy at close − 10, and the straddle sells at open + 2 and
open + 30. -/
theorem claim5_schedule :
    pumpConfig.schedule.filter (fun e => isBuySell e.handler) =
      [⟨DateRule.everyDay "SPY", TimeRule.beforeMarketClose "SPY" 15,
        HandlerTag.buyEodPump⟩] ∧
    straddleConfig.schedule.filter (fun e => isBuySell e.handler) =
      [⟨DateRule.everyDay "SPY", TimeRule.afterMarketOpen "SPY" 2,
        HandlerTag.sellTheOpen⟩,
       ⟨DateRule.everyDay "SPY", TimeRule.afterMarketOpen "SPY" 30,
        HandlerTag.sellAfterCircuitBreaker⟩,
       ⟨DateRule.everyDay "SPY", TimeRule.beforeMarketClose "SPY" 10,
        HandlerTag.buyTheClose⟩] :=
  ⟨rfl, rfl⟩

/-- C6, counterexample: selling from the unmatched-invested state `s6u`
(2 straddles bought at 1.00, cost basis 2·1·100 + 20) does fall back to the
recorded buy price — the cash credit is 2·1·100 = 200 — but the option
profit booked for the day is −20, the order fee inside the cost basis, not
zero. -/
theorem claim6_cex :
    (sellEverything 0 s6u).money = s6u.money + 200 ∧
    (sellEverything 0 s6u).option_total_profit - s6u.option_total_profit = -20 ∧
    (sellEverything 0 s6u).option_total_profit - s6u.option_total_profit ≠ 0 := by
  have e1 : (sellEverything 0 s6u).money = 100200 := by with_unfolding_all rfl
  have e2 : s6u.money = 100000 := rfl
  have e3 : (sellEverything 0 s6u).option_total_profit = -20 := by
    with_unfolding_all rfl
  have e4 : s6u.option_total_profit = 0 := rfl
  rw [e1, e2, e3, e4]
  norm_num

/-- C6, amended: when `SellEverything` runs holding a straddle position
(and the percentage `Debug` of the option block does not divide by zero), the
sale uses the combined bid of the invested contracts plus `option_sell_offset`
when they were matched in the latest chain; when they were not matched it
falls back to the recorded option buy price, and with the cost basis the
buy recorded — quantity·price·100 plus the 20.00 fee — the daily option
profit is exactly −20.00, not zero, rather than a failure. -/
theorem claim6_amended (s : SState) (bid : ℚ) (hh : s.holding = true)
    (hq : 0 < s.option_qty) (hcb : s.option_cost_basis ≠ 0) :
    (∀ ci pi, s.call_invested = some ci → s.put_invested = some pi →
      (sellEverything bid s).option_total_profit =
        s.option_total_profit + ((ci.bidPrice + pi.bidPrice + s.option_sell_offset) *
          (s.option_qty : ℚ) * 100 - s.option_cost_basis)) ∧
    ((s.call_invested = none ∨ s.put_invested = none) →
      s.option_cost_basis = (s.option_qty : ℚ) * s.option_buy_price * 100 + 20 →
      (sellEverything bid s).option_total_profit = s.option_total_profit - 20) := by
  have hg : ¬(0 < s.option_qty ∧ s.option_cost_basis = 0) := fun hcon => hcb hcon.2
  have hmain := sellEverything_otp bid s hh hg
  constructor
  · intro ci pi hci hpi
    rw [hmain, sellOptionLeg_otp_matched s ci pi hq hci hpi]
  · intro hun hrec
    rw [hmain, sellOptionLeg_otp_unmatched s hq hun, hrec]
    ring

/-- Witness for C6 (amended) on the matched state `s6m`: the sale books
(1 + 2 + 0.02)·2·100 − 220 = 384 of option profit. -/
theorem claim6_witness :
    (sellEverything 0 s6m).option_total_profit = 384 := by
  have h := (claim6_amended s6m 0 rfl (by norm_num [s6m, initState])
      (by norm_num [s6m, initState])).1 c6m p6m rfl rfl
  rw [h]
  norm_num [s6m, initState, c6m, p6m]

/-- C9, counterexample: a state reachable from the constructor in two
trading days (`ch1`, `ch2` option quotes, SPY ask/bid 50000/0 then 50/0)
violates the claimed invariant: after `SellTheOpen` at the second open,
`holding` is `False` while `option_qty` is `-1`.  The second `BuyTheClose`
ran with `money = 24`, so `int((24·0.5 − 20)/(0.05·100)) = int(−1.6) = −1`,
and the test `if self.option_qty > 0` in `SellEverything` never clears a negative
quantity. -/
theorem claim9_cex : Reachable cexState ∧ ¬ flatWhenNotHolding cexState := by
  constructor
  · exact Reachable.sellOpen _ false 0 (Reachable.buyClose _ 50 (Reachable.onData _ ch2
      (Reachable.sellOpen _ false 0 (Reachable.buyClose _ 50000 (Reachable.onData _ ch1
        (Reachable.init 0))))))
  · have h1 : cexState.holding = false := by with_unfolding_all rfl
    have h2 : cexState.option_qty = -1 := by with_unfolding_all rfl
    intro hcon
    have h3 := (hcon h1).1
    rw [h2] at h3
    exact absurd h3 (by decide)

/-- C9, amended: the invariant holds after the constructor and is preserved
by the data callback and every scheduled handler in the strengthened form
`Inv2` — whenever `holding` is `False` both quantities and both cost bases
are 0, and both quantities are nonnegative — provided each `BuyTheClose`
satisfies `buyOk`: option budget at least the 20.00 fee, nonnegative share
budget and ask, positive computed straddle price (otherwise `int()` can
produce a negative quantity that is never cleared, see the counterexample);
and every `SellEverything` call that completes — no `ZeroDivisionError` in
its percentage `Debug` lines — resets `holding` to `False`, both
quantities to 0 and both cost bases to 0.  `Inv2` implies the claimed
invariant. -/
theorem claim9_amended :
    (∀ t : ℤ, Inv2 (initState t)) ∧
    (∀ (s : SState) (ch : Chain), Inv2 s → Inv2 (onDataChain ch s)) ∧
    (∀ (s : SState) (ask : ℚ), Inv2 s → buyOk ask s → Inv2 (buyTheClose ask s)) ∧
    (∀ (s : SState) (cb : Bool) (bid : ℚ), Inv2 s → Inv2 (sellTheOpen cb bid s)) ∧
    (∀ (s : SState) (bid : ℚ), Inv2 s → Inv2 (sellAfterCircuitBreaker bid s)) ∧
    (∀ (s : SState) (bid : ℚ), Inv2 s →
      (0 < s.option_qty → s.option_cost_basis ≠ 0) →
      (0 < s.share_qty → s.share_cost_basis ≠ 0) →
      (s.holding = true → s.option_cost_basis + s.share_cost_basis ≠ 0) →
      (sellEverything bid s).holding = false ∧
      (sellEverything bid s).option_qty = 0 ∧
      (sellEverything bid s).share_qty = 0 ∧
      (sellEverything bid s).option_cost_basis = 0 ∧
      (sellEverything bid s).share_cost_basis = 0) ∧
    (∀ s : SState, Inv2 s → flatWhenNotHolding s) := by
  refine ⟨?_, ?_, ?_, ?_, ?_, ?_, ?_⟩
  · intro t
    exact ⟨fun _ => ⟨rfl, rfl, rfl, rfl⟩, le_refl 0, le_refl 0⟩
  · intro s ch hI
    exact inv2_of_core (onDataChain_core ch s) hI
  · intro s ask hI hb
    exact inv2_buyTheClose ask s hI hb
  · intro s cb bid hI
    exact inv2_sellTheOpen cb bid s hI
  · intro s bid hI
    exact inv2_sellAfterCircuitBreaker bid s hI
  · intro s bid hI
    exact sellEverything_resets bid s hI
  · intro s hI hh
    exact ⟨(hI.1 hh).1, (hI.1 hh).2.1⟩

/-- Witness for C9 (amended): a `BuyTheClose` from the constructor state
with SPY ask 50 satisfies `buyOk` and preserves `Inv2`. -/
theorem claim9_witness : Inv2 (buyTheClose 50 (initState 0)) := by
  refine claim9_amended.2.2.1 (initState 0) 50 (claim9_amended.1 0) ⟨?_, ?_, ?_, ?_⟩
  · norm_num [initState]
  · norm_num [initState]
  · norm_num
  · rfl

/-- C8: line 42 of `SpyLast15Minutes.py` opens an `if` statement but does
not end in the colon the Python grammar requires, so the module cannot parse
and no handler of `SpyEndOfDayPump` can run; the handler as intended
(modelled by `buyEodPump`) would buy when the last price exceeds 97% of the
recorded previous price and place a market-on-close order for the acquired
quantity. -/
theorem claim8_syntax_error :
    opensIfStatement pumpLine42 = true ∧ endsWithColon pumpLine42 = false ∧
    (∀ (lastP priceP : ℚ) (portQty : ℤ) (s : PState),
      buyEodPump lastP priceP portQty s =
        (⟨priceP⟩,
          if s.yest_price * (97 / 100) < lastP then
            [HostAction.setHoldings "SPY" 1, HostAction.marketOnCloseOrder "SPY" portQty]
          else [])) := by
  refine ⟨by with_unfolding_all rfl, by with_unfolding_all rfl, ?_⟩
  intro lastP priceP portQty s
  rfl

end QC